import Mathlib

/-!
Verification of the ephemeral two-party chat ("SecretChat") against its
sources. The data model and operations below are shallow embeddings of
the TypeScript components:

- `create-chat-form.tsx` : session creation (`onSubmit`);
- `join-challenge.tsx`   : admission control (`handleJoin`, challenge `onSubmit`);
- `chat-interface.tsx`   : leave transaction (`handleLeaveChat`), the
  message-snapshot destruction scheduler, and read-receipt marking
  (`markOtherMessagesAsRead`, `handleSendMessage`).

Timestamps are modelled as natural numbers of milliseconds, matching the
JavaScript `Date.getTime()` arithmetic of the scheduler. Firestore
documents carry only the fields actually written to them, so every
session field is an `Option`; reads coerce missing fields exactly the way
the code does (`data.participants || []` becomes `Option.getD [] _`,
a missing numeric compared with `>` behaves as the `getD 0` reading).
-/

namespace SecretChat

/-- Milliseconds since epoch, as produced by `Date.getTime()`. -/
abbrev Time := Nat

/-- A challenge question as stored in the session document: the correct
answer index is kept as a string (the radio-group value). -/
structure ChallengeQuestion where
  question : String
  options : List String
  correctAnswerIndex : String
deriving DecidableEq

/-- Presence record: `{status, last_active}`; status is modelled as a
Boolean flag (`true` = online). -/
structure PresenceRecord where
  online : Bool
  lastActive : Option Time
deriving DecidableEq

/-- A session document. Every field is optional because Firestore
documents only contain the fields some write actually set; in
particular the creation form writes neither `participants` nor
`participantCount` nor `selfDestructUnseenSeconds`. -/
structure SessionDoc where
  selfDestructSeconds : Option Nat
  selfDestructUnseenSeconds : Option Nat
  kickOnWrongAnswer : Option Bool
  questions : Option (List ChallengeQuestion)
  createdAtIso : Option String
  participants : Option (List String)
  participantCount : Option Nat
  presence : Option (List (String × PresenceRecord))
deriving DecidableEq

/-- Message kinds: `'text' | 'image' | 'system'`. -/
inductive MsgType where
  | text
  | image
  | system
deriving DecidableEq

/-- A message document in `sessions/{id}/messages`. `createdAt` is
`none` while the server timestamp is still pending. -/
structure MessageDoc where
  id : String
  senderId : String
  type : MsgType
  text : Option String
  imageUrl : Option String
  createdAt : Option Time
  seenAt : Option Time
deriving DecidableEq

/-- The values submitted by the creation form: the self-destruct slider
is a one-element array of numbers. -/
structure CreateFormValues where
  selfDestructSeconds : List Nat
  kickOnWrongAnswer : Bool
  questions : List ChallengeQuestion
deriving DecidableEq

/-- `create-chat-form.tsx`, `onSubmit`: the stored document is the form
data with `selfDestructSeconds` replaced by its first array element and
a `createdAt` ISO string added; nothing else is written. -/
def createSessionDoc (f : CreateFormValues) (nowIso : String) : SessionDoc :=
  { selfDestructSeconds := f.selfDestructSeconds.head?
    selfDestructUnseenSeconds := none
    kickOnWrongAnswer := some f.kickOnWrongAnswer
    questions := some f.questions
    createdAtIso := some nowIso
    participants := none
    participantCount := none
    presence := none }

/-- Text of the join notice: `userId.substring(0, 12) + " has joined the chat."`. -/
def joinMessageText (userId : String) : String :=
  userId.take 12 ++ " has joined the chat."

/-- Text of the leave notice. -/
def leaveMessageText (userId : String) : String :=
  userId.take 12 ++ " has left the chat."

/-- The system message inserted by a successful join. -/
def joinSystemMessage (userId : String) (msgId : String) : MessageDoc :=
  { id := msgId
    senderId := "system"
    type := MsgType.system
    text := some (joinMessageText userId)
    imageUrl := none
    createdAt := none
    seenAt := none }

/-- The system message inserted by a mutating leave. -/
def leaveSystemMessage (userId : String) (msgId : String) : MessageDoc :=
  { id := msgId
    senderId := "system"
    type := MsgType.system
    text := some (leaveMessageText userId)
    imageUrl := none
    createdAt := none
    seenAt := none }

/-- Outcome of a join attempt, as observed by the caller. -/
inductive JoinResult where
  | roomFull
  | alreadyJoined
  | joined (newParticipants : List String)
  | wrongAnswer (kicked : Bool)
deriving DecidableEq

/-- Effect of one admission or leave transaction: the resulting session
document, the messages written through the transaction object itself
(`transaction.set`, committed in the same atomic unit), and the messages
written by plain non-transactional writes issued during the callback
(`addDoc`, not part of the atomic commit). -/
structure TxEffect where
  result : JoinResult
  session : SessionDoc
  txMessages : List MessageDoc
  sideMessages : List MessageDoc
deriving DecidableEq

/-- `join-challenge.tsx`, `handleJoin`: inside `runTransaction`, read
`data.participants || []`; throw room-full when the list already has two
or more members; return silently when the caller is already listed;
otherwise append the caller, write `participants` and
`participantCount`, and insert the join notice with `addDoc` (a plain
write, not a `transaction.set`). -/
def handleJoin (s : SessionDoc) (userId : String) (msgId : String) : TxEffect :=
  let participants := s.participants.getD []
  if 2 ≤ participants.length then
    { result := JoinResult.roomFull
      session := s
      txMessages := []
      sideMessages := [] }
  else if userId ∈ participants then
    { result := JoinResult.alreadyJoined
      session := s
      txMessages := []
      sideMessages := [] }
  else
    let newParticipants := participants ++ [userId]
    { result := JoinResult.joined newParticipants
      session :=
        { s with
          participants := some newParticipants
          participantCount := some newParticipants.length }
      txMessages := []
      sideMessages := [joinSystemMessage userId msgId] }

/-- `chat-interface.tsx`, `handleLeaveChat`: inside `runTransaction`,
filter the caller out of `participants`, delete the caller from
`presence`, write the three fields unconditionally, and insert the leave
notice with `transaction.set` only when the caller was actually listed. -/
def handleLeaveChat (s : SessionDoc) (userId : String) (msgId : String) : TxEffect :=
  let currentParticipants := s.participants.getD []
  let newParticipants := currentParticipants.filter (fun p => decide (p ≠ userId))
  let newPresence := (s.presence.getD []).filter (fun p => decide (p.1 ≠ userId))
  let updated :=
    { s with
      participants := some newParticipants
      participantCount := some newParticipants.length
      presence := some newPresence }
  if userId ∈ currentParticipants then
    { result := JoinResult.joined newParticipants
      session := updated
      txMessages := [leaveSystemMessage userId msgId]
      sideMessages := [] }
  else
    { result := JoinResult.joined newParticipants
      session := updated
      txMessages := []
      sideMessages := [] }

/-- `join-challenge.tsx`, challenge `onSubmit`: every submitted answer is
compared by strict string equality with the question correct-option
index; a missing answer (`undefined`) differs from every string. -/
def allAnswersCorrect (qs : List ChallengeQuestion) (answers : Nat → Option String) : Bool :=
  (List.range qs.length).all fun i =>
    answers i == (qs.get? i).map (fun q => q.correctAnswerIndex)

/-- A full join attempt through the challenge form: wrong answers never
reach `handleJoin` — with `kickOnWrongAnswer` the client shows a kicked
notice, without it an alert, but in both cases nothing is written. -/
def joinAttempt (s : SessionDoc) (userId : String) (msgId : String)
    (answers : Nat → Option String) : TxEffect :=
  if allAnswersCorrect (s.questions.getD []) answers then
    handleJoin s userId msgId
  else
    { result := JoinResult.wrongAnswer (s.kickOnWrongAnswer.getD false)
      session := s
      txMessages := []
      sideMessages := [] }

/-! ### Destruction Scheduler

`chat-interface.tsx`, message-snapshot effect. On every snapshot event
the client first cancels timers for ids absent from the snapshot, then,
for each document in snapshot order: it cancels any existing timer for
the id, computes the deadline from the session policy, issues an
immediate delete when the deadline is past, and otherwise schedules a
fresh timer. The timer table is a mutable map keyed by message id,
modelled here as an association list; the observable behaviour is the
returned action trace. -/

/-- An observable action of the scheduler during snapshot processing. -/
inductive SchedAction where
  | cancelTimer (id : String)
  | scheduleTimer (id : String) (deadline : Time)
  | deleteNow (id : String)
deriving DecidableEq

/-- Deadline computation, line by line from the snapshot handler:
`selfDestructSeconds > 0 && message.seenAt` gives the seen path,
otherwise `selfDestructUnseenSeconds > 0 && !message.seenAt &&
message.createdAt` gives the unseen path, otherwise no deadline. The
message kind is never inspected. -/
def computeDeadline (sds sdus : Nat) (m : MessageDoc) : Option Time :=
  match m.seenAt, m.createdAt with
  | some seen, _ => if 0 < sds then some (seen + sds * 1000) else none
  | none, some created => if 0 < sdus then some (created + sdus * 1000) else none
  | none, none => none

/-- The timer-table entry a message ends up with after being processed
at instant `now`: present exactly when its deadline exists and is still
in the future. -/
def timerEntry (sds sdus : Nat) (now : Time) (m : MessageDoc) : Option (String × Time) :=
  match computeDeadline sds sdus m with
  | none => none
  | some d => if d ≤ now then none else some (m.id, d)

/-- Per-document step of the snapshot handler: clear any existing timer
for this id, then either delete immediately (deadline past), schedule a
fresh timer (deadline future), or do nothing (no deadline). -/
def processMessage (sds sdus : Nat) (now : Time) (st : List (String × Time))
    (m : MessageDoc) : List (String × Time) × List SchedAction :=
  let hasTimer := (st.lookup m.id).isSome
  let st1 := if hasTimer then st.filter (fun p => decide (p.1 ≠ m.id)) else st
  let acts1 := if hasTimer then [SchedAction.cancelTimer m.id] else []
  match computeDeadline sds sdus m with
  | none => (st1, acts1)
  | some d =>
    if d ≤ now then
      (st1, acts1 ++ [SchedAction.deleteNow m.id])
    else
      (st1 ++ [(m.id, d)], acts1 ++ [SchedAction.scheduleTimer m.id d])

/-- Folding the per-document step over the snapshot in order. -/
def runSnap (sds sdus : Nat) (now : Time) :
    List MessageDoc → List (String × Time) → List (String × Time) × List SchedAction
  | [], st => (st, [])
  | m :: rest, st =>
    let step := processMessage sds sdus now st m
    let tail := runSnap sds sdus now rest step.1
    (tail.1, step.2 ++ tail.2)

/-- One snapshot event: first prune timers whose message id is no longer
present (each pruned timer is cancelled), then process every document of
the snapshot in order. -/
def processSnapshot (sds sdus : Nat) (now : Time) (snap : List MessageDoc)
    (timers : List (String × Time)) : List (String × Time) × List SchedAction :=
  let ids := snap.map (fun m => m.id)
  let kept := timers.filter (fun p => decide (p.1 ∈ ids))
  let dropped := timers.filter (fun p => !(decide (p.1 ∈ ids)))
  let run := runSnap sds sdus now snap kept
  (run.1, dropped.map (fun p => SchedAction.cancelTimer p.1) ++ run.2)

/-- The canonical timer table determined by a snapshot alone: one entry
per message whose deadline is still in the future, in snapshot order. -/
def canonicalTimers (sds sdus : Nat) (now : Time) (snap : List MessageDoc) :
    List (String × Time) :=
  snap.filterMap (timerEntry sds sdus now)

/-! ### Read receipts and store writes -/

/-- `chat-interface.tsx`, `otherParticipantId`:
`participants.find(p => p !== userId) || null`. -/
def otherParticipantId (participants : List String) (userId : String) : Option String :=
  participants.find? (fun p => decide (p ≠ userId))

/-- Ids collected by `markOtherMessagesAsRead`: the query
`where senderId == other, where seenAt == null` over the message log. -/
def markOtherMessagesAsRead (otherId : Option String) (msgs : List MessageDoc) :
    List String :=
  match otherId with
  | none => []
  | some oid =>
    (msgs.filter (fun m => decide (m.senderId = oid) && m.seenAt.isNone)).map
      (fun m => m.id)

/-- The batched update applied to one message when the mark-seen batch
commits with `other` as the peer: set `seenAt` to the server timestamp
exactly when the message matches the query (peer sender, null seenAt). -/
def markOne (oid : String) (serverNow : Time) (m : MessageDoc) : MessageDoc :=
  if m.senderId = oid ∧ m.seenAt = none then
    { m with seenAt := some serverNow }
  else m

/-- The message log after the mark-seen batch commits. -/
def applyMarkSeen (otherId : Option String) (serverNow : Time)
    (msgs : List MessageDoc) : List MessageDoc :=
  match otherId with
  | none => msgs
  | some oid => msgs.map (markOne oid serverNow)

/-- A write against the message collection of the store. -/
inductive StoreWrite where
  | deleteMsg (id : String)
  | setSeen (id : String)
  | addMsg (m : MessageDoc)
deriving DecidableEq

/-- The text message document created by `handleSendMessage`. -/
def newTextMessage (userId : String) (txt : String) (msgId : String) : MessageDoc :=
  { id := msgId
    senderId := userId
    type := MsgType.text
    text := some txt
    imageUrl := none
    createdAt := none
    seenAt := none }

/-- JS truthiness of `newMessage.trim()`: trimming leaves a non-empty
string exactly when some character is not whitespace. -/
def trimNonempty (txt : String) : Bool :=
  txt.data.any (fun c => !c.isWhitespace)

/-- Store writes committed by `handleSendMessage` in one batch: the
mark-seen updates together with the new outgoing message; nothing is
written when the trimmed text or the user id is empty. -/
def sendMessageWrites (userId : String) (otherId : Option String) (txt : String)
    (msgId : String) (msgs : List MessageDoc) : List StoreWrite :=
  if trimNonempty txt = true ∧ userId ≠ "" then
    (markOtherMessagesAsRead otherId msgs).map StoreWrite.setSeen ++
      [StoreWrite.addMsg (newTextMessage userId txt msgId)]
  else []

/-- Store writes issued while processing one snapshot: only the
immediate deletes of past-deadline messages; the snapshot handler never
touches `seenAt`. -/
def snapshotWrites (sds sdus : Nat) (now : Time) (snap : List MessageDoc)
    (timers : List (String × Time)) : List StoreWrite :=
  (processSnapshot sds sdus now snap timers).2.filterMap fun a =>
    match a with
    | SchedAction.deleteNow i => some (StoreWrite.deleteMsg i)
    | _ => none

/-! ### Reachable session states -/

/-- Session states reachable through the operations of the app: a fresh
creation, followed by any sequence of join and leave transactions. -/
inductive Reachable : SessionDoc → Prop where
  | create (f : CreateFormValues) (nowIso : String) :
      Reachable (createSessionDoc f nowIso)
  | join (s : SessionDoc) (u msgId : String) :
      Reachable s → Reachable (handleJoin s u msgId).session
  | leave (s : SessionDoc) (u msgId : String) :
      Reachable s → Reachable (handleLeaveChat s u msgId).session

/-! ### Concrete fixtures used by counterexamples and witnesses -/

/-- Participant id used in examples. -/
def aliceId : String := "alice"

/-- Participant id used in examples. -/
def bobId : String := "bob"

/-- Participant id used in examples. -/
def carolId : String := "carol"

/-- Message id used in examples. -/
def mid1 : String := "m1"

/-- Message id used in examples. -/
def mid2 : String := "m2"

/-- System message id used in examples. -/
def sid1 : String := "s1"

/-- Creation timestamp string used in examples. -/
def sampleIso : String := "2026-01-01T00:00:00.000Z"

/-- A creation form with the default slider value and no questions. -/
def sampleForm : CreateFormValues :=
  { selfDestructSeconds := [15]
    kickOnWrongAnswer := true
    questions := [] }

/-- The freshly created session document for `sampleForm`. -/
def sampleCreated : SessionDoc :=
  createSessionDoc sampleForm sampleIso

/-- A session whose stored participants are exactly alice and bob. -/
def sessionAB : SessionDoc :=
  { sampleCreated with
    participants := some [aliceId, bobId]
    participantCount := some 2 }

/-- A text message from bob, created at time 0, never seen. -/
def msgFromBob : MessageDoc :=
  { id := mid1
    senderId := bobId
    type := MsgType.text
    text := some "hi"
    imageUrl := none
    createdAt := some 0
    seenAt := none }

/-- A text message seen at time 0. -/
def msgSeen : MessageDoc :=
  { id := mid1
    senderId := aliceId
    type := MsgType.text
    text := some "x"
    imageUrl := none
    createdAt := some 0
    seenAt := some 0 }

/-- A system join notice with a resolved creation timestamp, unseen. -/
def sysMsg : MessageDoc :=
  { id := sid1
    senderId := "system"
    type := MsgType.system
    text := some "alice has joined the chat."
    imageUrl := none
    createdAt := some 0
    seenAt := none }

/-! ### Helper lemmas -/

/-- A list is unchanged by filtering out a key that does not occur in it. -/
theorem filter_ne_of_not_mem {l : List String} {u : String} (h : u ∉ l) :
    l.filter (fun p => decide (p ≠ u)) = l := by
  refine List.filter_eq_self.mpr fun a ha => ?_
  exact decide_eq_true fun he => h (he ▸ ha)

/-! ### Claim C1 -/

/-- C1 (amended): in the join transaction the capacity check precedes the
membership check. If the stored participant list already has two or more
members the transaction fails room-full with no writes, even when the
caller is among them; if the list has fewer than two members and
contains the caller, the join is an idempotent success with no writes;
otherwise the caller is appended, `participantCount` is set to the new
length, and the join notice is inserted. -/
theorem claim1_join_transaction_cases (s : SessionDoc) (u mid : String) :
    (2 ≤ (s.participants.getD []).length →
      handleJoin s u mid =
        { result := JoinResult.roomFull
          session := s
          txMessages := []
          sideMessages := [] }) ∧
    ((s.participants.getD []).length < 2 → u ∈ s.participants.getD [] →
      handleJoin s u mid =
        { result := JoinResult.alreadyJoined
          session := s
          txMessages := []
          sideMessages := [] }) ∧
    ((s.participants.getD []).length < 2 → u ∉ s.participants.getD [] →
      handleJoin s u mid =
        { result := JoinResult.joined (s.participants.getD [] ++ [u])
          session :=
            { s with
              participants := some (s.participants.getD [] ++ [u])
              participantCount := some ((s.participants.getD []).length + 1) }
          txMessages := []
          sideMessages := [joinSystemMessage u mid] }) := by
  refine ⟨fun h2 => ?_, fun h2 hmem => ?_, fun h2 hmem => ?_⟩
  · simp [handleJoin, h2]
  · simp [handleJoin, hmem]
    omega
  · have hn2 : ¬ 2 ≤ (s.participants.getD []).length := by omega
    simp [handleJoin, hmem, hn2]

/-- C1 counterexample: bob is one of the two stored participants, yet
the join transaction rejects him with room-full instead of treating the
re-join as an idempotent success, because the capacity check runs before
the membership check. -/
theorem claim1_counterexample :
    bobId ∈ sessionAB.participants.getD [] ∧
    (sessionAB.participants.getD []).length = 2 ∧
    handleJoin sessionAB bobId mid1 =
      { result := JoinResult.roomFull
        session := sessionAB
        txMessages := []
        sideMessages := [] } := by
  decide

/-- C1 witness: the amended case analysis evaluated on concrete inputs. -/
theorem claim1_witness :
    handleJoin sessionAB carolId mid1 =
      { result := JoinResult.roomFull
        session := sessionAB
        txMessages := []
        sideMessages := [] } :=
  (claim1_join_transaction_cases sessionAB carolId mid1).1 (by decide)

/-! ### Claim C4 -/

/-- C4 (amended): a leave by a listed participant inserts exactly one
leave notice through the transaction object, in the same atomic unit as
the participant-list update, and a leave by a non-listed participant
inserts no message and leaves the stored list unchanged. A mutating join
also inserts exactly one join notice, but through a plain `addDoc` write
issued during the transaction callback, not as part of the atomic
commit; a non-mutating join inserts nothing. -/
theorem claim4_system_message_atomicity (s : SessionDoc) (u mid : String) :
    (u ∈ s.participants.getD [] →
      (handleLeaveChat s u mid).txMessages = [leaveSystemMessage u mid] ∧
      (handleLeaveChat s u mid).sideMessages = []) ∧
    (u ∉ s.participants.getD [] →
      (handleLeaveChat s u mid).txMessages = [] ∧
      (handleLeaveChat s u mid).sideMessages = [] ∧
      (handleLeaveChat s u mid).session.participants = some (s.participants.getD [])) ∧
    ((s.participants.getD []).length < 2 → u ∉ s.participants.getD [] →
      (handleJoin s u mid).txMessages = [] ∧
      (handleJoin s u mid).sideMessages = [joinSystemMessage u mid]) ∧
    (2 ≤ (s.participants.getD []).length ∨ u ∈ s.participants.getD [] →
      (handleJoin s u mid).txMessages = [] ∧
      (handleJoin s u mid).sideMessages = []) := by
  refine ⟨fun hmem => ?_, fun hmem => ?_, fun h2 hmem => ?_, fun h => ?_⟩
  · simp [handleLeaveChat, hmem]
  · refine ⟨by simp [handleLeaveChat, hmem], by simp [handleLeaveChat, hmem], ?_⟩
    simp [handleLeaveChat, hmem]
    exact fun a ha he => hmem (he ▸ ha)
  · have hn2 : ¬ 2 ≤ (s.participants.getD []).length := by omega
    simp [handleJoin, hmem, hn2]
  · rcases h with h2 | hmem
    · simp [handleJoin, h2]
    · by_cases h2 : 2 ≤ (s.participants.getD []).length
      · simp [handleJoin, h2]
      · simp [handleJoin, h2, hmem]

/-- C4 counterexample: a join that mutates the participants list writes
its join notice outside the atomic unit of the transaction: the list of
messages committed by the transaction itself is empty while the notice
is a separate plain write. -/
theorem claim4_counterexample :
    (handleJoin sampleCreated aliceId mid1).session.participants = some [aliceId] ∧
    (handleJoin sampleCreated aliceId mid1).txMessages = [] ∧
    (handleJoin sampleCreated aliceId mid1).sideMessages =
      [joinSystemMessage aliceId mid1] := by
  decide

/-- C4 witness: the amended statement evaluated on concrete inputs. -/
theorem claim4_witness :
    (handleLeaveChat sessionAB aliceId mid2).txMessages =
      [leaveSystemMessage aliceId mid2] ∧
    (handleLeaveChat sessionAB aliceId mid2).sideMessages = [] :=
  (claim4_system_message_atomicity sessionAB aliceId mid2).1 (by decide)

/-! ### Claim C9 -/

/-- C9 (confirmed): when any submitted answer differs from its question
correct-option index, the join attempt is rejected as wrong-answer for
either value of `kickOnWrongAnswer` (the flag only selects the
client-visible reaction), the session document is unchanged, and no
message of any kind is inserted. -/
theorem claim9_wrong_answer_rejected (s : SessionDoc) (u mid : String)
    (answers : Nat → Option String) (i : Nat)
    (hi : i < (s.questions.getD []).length)
    (hw : answers i ≠ ((s.questions.getD []).get? i).map
      (fun q => q.correctAnswerIndex)) :
    joinAttempt s u mid answers =
      { result := JoinResult.wrongAnswer (s.kickOnWrongAnswer.getD false)
        session := s
        txMessages := []
        sideMessages := [] } := by
  have hfalse : allAnswersCorrect (s.questions.getD []) answers = false := by
    unfold allAnswersCorrect
    rw [List.all_eq_false]
    exact ⟨i, List.mem_range.mpr hi, by simpa using hw⟩
  simp [joinAttempt, hfalse]

/-- Question fixture: one question whose correct option index is 1. -/
def sampleQuestion : ChallengeQuestion :=
  { question := "passphrase?"
    options := ["red", "blue"]
    correctAnswerIndex := "1" }

/-- A session guarded by `sampleQuestion` with `kickOnWrongAnswer` on. -/
def sessionWithQuestion : SessionDoc :=
  { sampleCreated with questions := some [sampleQuestion] }

/-- An answer sheet whose first answer is the wrong option index. -/
def wrongAnswers : Nat → Option String := fun _ => some "0"

/-- C9 witness: the wrong-answer rejection evaluated on concrete inputs. -/
theorem claim9_witness :
    joinAttempt sessionWithQuestion carolId mid1 wrongAnswers =
      { result := JoinResult.wrongAnswer true
        session := sessionWithQuestion
        txMessages := []
        sideMessages := [] } :=
  claim9_wrong_answer_rejected sessionWithQuestion carolId mid1 wrongAnswers 0
    (by decide) (by decide)

/-! ### Claim C10 -/

/-- C10 (confirmed): the created session document carries exactly
`selfDestructSeconds` unwrapped from the one-element form array,
`kickOnWrongAnswer`, `questions` and the `createdAt` string; it has no
`selfDestructUnseenSeconds`, no `participants`, no `participantCount`
and no `presence`, so the creator is not listed as a participant and no
join transaction runs at creation. -/
theorem claim10_creation_document (f : CreateFormValues) (nowIso : String) (n : Nat)
    (h : f.selfDestructSeconds = [n]) :
    (createSessionDoc f nowIso).selfDestructSeconds = some n ∧
    (createSessionDoc f nowIso).kickOnWrongAnswer = some f.kickOnWrongAnswer ∧
    (createSessionDoc f nowIso).questions = some f.questions ∧
    (createSessionDoc f nowIso).createdAtIso = some nowIso ∧
    (createSessionDoc f nowIso).selfDestructUnseenSeconds = none ∧
    (createSessionDoc f nowIso).participants = none ∧
    (createSessionDoc f nowIso).participantCount = none ∧
    (createSessionDoc f nowIso).presence = none := by
  simp [createSessionDoc, h]

/-- C10 witness: the creation document evaluated on the sample form. -/
theorem claim10_witness :
    sampleCreated.selfDestructSeconds = some 15 ∧
    sampleCreated.kickOnWrongAnswer = some true ∧
    sampleCreated.questions = some [] ∧
    sampleCreated.createdAtIso = some sampleIso ∧
    sampleCreated.selfDestructUnseenSeconds = none ∧
    sampleCreated.participants = none ∧
    sampleCreated.participantCount = none ∧
    sampleCreated.presence = none := by
  have h := claim10_creation_document sampleForm sampleIso 15 (by decide)
  simpa [sampleCreated, sampleForm] using h

/-! ### Claim C5 -/

/-- C5 (amended): for every reachable session state, reading a missing
`participants` field as the empty list and a missing `participantCount`
as zero — exactly how every code path reads them — the count equals the
list length and the length is at most two; moreover whenever the
`participants` field is actually present, `participantCount` is present
and strictly equal to the list length. -/
theorem claim5_participant_count_invariant (s : SessionDoc) (h : Reachable s) :
    s.participantCount.getD 0 = (s.participants.getD []).length ∧
    (s.participants.getD []).length ≤ 2 ∧
    (∀ l, s.participants = some l → s.participantCount = some l.length) := by
  induction h with
  | create f nowIso =>
    refine ⟨rfl, by simp [createSessionDoc], fun l hl => ?_⟩
    simp [createSessionDoc] at hl
  | join s u msgId _ ih =>
    by_cases h2 : 2 ≤ (s.participants.getD []).length
    · simpa [handleJoin, h2] using ih
    · by_cases hmem : u ∈ s.participants.getD []
      · have hn2 : ¬ 2 ≤ (s.participants.getD []).length := h2
        simpa [handleJoin, hn2, hmem] using ih
      · have hn2 : ¬ 2 ≤ (s.participants.getD []).length := h2
        have hsp : (handleJoin s u msgId).session.participants =
            some (s.participants.getD [] ++ [u]) := by
          simp [handleJoin, hn2, hmem]
        have hsc : (handleJoin s u msgId).session.participantCount =
            some ((s.participants.getD []).length + 1) := by
          simp [handleJoin, hn2, hmem]
        refine ⟨?_, ?_, ?_⟩
        · rw [hsp, hsc]; simp
        · rw [hsp]; simp; omega
        · intro l hl
          rw [hsp] at hl
          rw [hsc, ← Option.some.inj hl]
          simp
  | leave s u msgId _ ih =>
    have hsp : (handleLeaveChat s u msgId).session.participants =
        some ((s.participants.getD []).filter (fun p => decide (p ≠ u))) := by
      by_cases hmem : u ∈ s.participants.getD [] <;> simp [handleLeaveChat, hmem]
    have hsc : (handleLeaveChat s u msgId).session.participantCount =
        some (((s.participants.getD []).filter (fun p => decide (p ≠ u))).length) := by
      by_cases hmem : u ∈ s.participants.getD [] <;> simp [handleLeaveChat, hmem]
    have hlen : (((s.participants.getD []).filter (fun p => decide (p ≠ u)))).length ≤ 2 :=
      le_trans (List.length_filter_le _ _) ih.2.1
    refine ⟨?_, ?_, ?_⟩
    · rw [hsp, hsc]; simp
    · rw [hsp]; simpa using hlen
    · intro l hl
      rw [hsp] at hl
      rw [hsc, ← Option.some.inj hl]

/-- C5 counterexample: a freshly created session is reachable, yet its
`participantCount` field is absent — it is not equal, as a stored field,
to the length of a participants list; the claim holds only under the
missing-field-as-zero reading. -/
theorem claim5_counterexample :
    Reachable sampleCreated ∧
    sampleCreated.participantCount = none ∧
    sampleCreated.participantCount ≠
      some ((sampleCreated.participants.getD []).length) :=
  ⟨Reachable.create sampleForm sampleIso, by decide, by decide⟩

/-- C5 witness: the invariant evaluated on a concrete reachable state. -/
theorem claim5_witness :
    (handleJoin sampleCreated aliceId mid1).session.participantCount.getD 0 =
      (((handleJoin sampleCreated aliceId mid1).session.participants.getD [])).length ∧
    (((handleJoin sampleCreated aliceId mid1).session.participants.getD [])).length ≤ 2 :=
  ⟨(claim5_participant_count_invariant _
      (Reachable.join sampleCreated aliceId mid1
        (Reachable.create sampleForm sampleIso))).1,
   (claim5_participant_count_invariant _
      (Reachable.join sampleCreated aliceId mid1
        (Reachable.create sampleForm sampleIso))).2.1⟩

/-! ### Claim C7 -/

/-- C7 (confirmed): the mark-seen batch is a per-message map; a message
with a non-null `seenAt` is never modified, a message that the batch
modifies had a null `seenAt` and receives the server timestamp, and a
message whose sender is the marking client itself is never modified,
because the peer id is found with the predicate that excludes the local
user id. -/
theorem claim7_seen_at_write_once (ps : List String) (userId oid : String)
    (serverNow : Time) (m : MessageDoc) (msgs : List MessageDoc) :
    (applyMarkSeen (some oid) serverNow msgs = msgs.map (markOne oid serverNow)) ∧
    (∀ t, m.seenAt = some t → markOne oid serverNow m = m) ∧
    (markOne oid serverNow m ≠ m →
      m.seenAt = none ∧ (markOne oid serverNow m).seenAt = some serverNow) ∧
    (otherParticipantId ps userId = some oid → m.senderId = userId →
      markOne oid serverNow m = m) := by
  refine ⟨rfl, fun t ht => ?_, fun hne => ?_, fun hoid hsend => ?_⟩
  · simp [markOne, ht]
  · by_cases hc : m.senderId = oid ∧ m.seenAt = none
    · exact ⟨hc.2, by simp [markOne, hc]⟩
    · exact absurd (by simp [markOne, hc]) hne
  · have hne : oid ≠ userId := by
      have := List.find?_some hoid
      simpa using this
    have hc : ¬ (m.senderId = oid ∧ m.seenAt = none) := by
      rintro ⟨h1, -⟩
      exact hne (by rw [← h1, hsend])
    simp [markOne, hc]

/-- A message from bob already seen at time 5. -/
def msgSeenFromBob : MessageDoc :=
  { id := mid2
    senderId := bobId
    type := MsgType.text
    text := some "x"
    imageUrl := none
    createdAt := some 0
    seenAt := some 5 }

/-- C7 witness: the write-once properties evaluated on concrete data. -/
theorem claim7_witness :
    markOne bobId 9000 msgSeenFromBob = msgSeenFromBob ∧
    markOne bobId 9000 msgSeen = msgSeen :=
  ⟨(claim7_seen_at_write_once [aliceId, bobId] aliceId bobId 9000 msgSeenFromBob []).2.1
      5 (by decide),
   (claim7_seen_at_write_once [aliceId, bobId] aliceId bobId 9000 msgSeen []).2.2.2
      (by decide) (by decide)⟩

/-! ### Scheduler helper lemmas -/

/-- A timer entry produced for a message carries that message id as key. -/
theorem timerEntry_key {sds sdus : Nat} {now : Time} {m : MessageDoc}
    {e : String × Time} (h : timerEntry sds sdus now m = some e) : e.1 = m.id := by
  unfold timerEntry at h
  rcases hd : computeDeadline sds sdus m with - | d <;> rw [hd] at h <;> dsimp only at h
  · exact absurd h (by simp)
  · by_cases hle : d ≤ now
    · rw [if_pos hle] at h
      exact absurd h (by simp)
    · rw [if_neg hle] at h
      rw [← Option.some.inj h]

/-- An association list is unchanged by filtering out an absent key. -/
theorem filter_key_ne_of_lookup_none {st : List (String × Time)} {k : String}
    (h : st.lookup k = none) : st.filter (fun p => decide (p.1 ≠ k)) = st := by
  induction st with
  | nil => rfl
  | cons p rest ih =>
    by_cases hk : k = p.1
    · exfalso
      have hb : (k == p.1) = true := beq_iff_eq.mpr hk
      rw [List.lookup, hb] at h
      exact Option.noConfusion h
    · have hb : (k == p.1) = false := beq_eq_false_iff_ne.mpr hk
      have h2 : rest.lookup k = none := by
        rw [List.lookup, hb] at h
        exact h
      have hne : p.1 ≠ k := fun he => hk he.symm
      rw [List.filter_cons_of_pos (by simpa using hne), ih h2]

/-- State shape of the per-document step: the old entry for the id is
removed and the fresh entry, when the deadline is in the future, is
appended. -/
theorem processMessage_fst (sds sdus : Nat) (now : Time)
    (st : List (String × Time)) (m : MessageDoc) :
    (processMessage sds sdus now st m).1 =
      st.filter (fun p => decide (p.1 ≠ m.id)) ++ (timerEntry sds sdus now m).toList := by
  unfold processMessage timerEntry
  cases hl : (st.lookup m.id).isSome with
  | true =>
    cases hd : computeDeadline sds sdus m with
    | none => simp [hl, hd]
    | some d =>
      by_cases hle : d ≤ now
      · simp [hl, hd, hle]
      · simp [hl, hd, hle]
  | false =>
    have hn : st.lookup m.id = none := Option.not_isSome_iff_eq_none.mp (by simp [hl])
    have hf := filter_key_ne_of_lookup_none hn
    have hf2 : st.filter (fun p => !decide (p.1 = m.id)) = st := by
      simpa using hf
    cases hd : computeDeadline sds sdus m with
    | none => simp [hl, hd, hf2]
    | some d =>
      by_cases hle : d ≤ now
      · simp [hl, hd, hle, hf2]
      · simp [hl, hd, hle, hf2]

/-- Unfolding one step of the snapshot fold. -/
theorem runSnap_cons (sds sdus : Nat) (now : Time) (m : MessageDoc)
    (rest : List MessageDoc) (st : List (String × Time)) :
    runSnap sds sdus now (m :: rest) st =
      ((runSnap sds sdus now rest (processMessage sds sdus now st m).1).1,
        (processMessage sds sdus now st m).2 ++
          (runSnap sds sdus now rest (processMessage sds sdus now st m).1).2) := rfl

/-- The timer table left by the snapshot fold: entries whose key is not
any snapshot id survive untouched, and each snapshot message contributes
its canonical entry, provided the snapshot ids are distinct. -/
theorem runSnap_fst (sds sdus : Nat) (now : Time) :
    ∀ (snap : List MessageDoc) (st : List (String × Time)),
      (snap.map (fun m => m.id)).Nodup →
      (runSnap sds sdus now snap st).1 =
        st.filter (fun p => !(decide (p.1 ∈ snap.map (fun m => m.id)))) ++
          canonicalTimers sds sdus now snap
  | [], st, _ => by
    simp [runSnap, canonicalTimers]
  | m :: rest, st, h => by
    rw [List.map_cons] at h
    have hm : m.id ∉ rest.map (fun x => x.id) := (List.nodup_cons.mp h).1
    have hrest : (rest.map (fun x => x.id)).Nodup := (List.nodup_cons.mp h).2
    rw [runSnap_cons]
    rw [runSnap_fst sds sdus now rest _ hrest]
    rw [processMessage_fst]
    rw [List.filter_append]
    have hE : ((timerEntry sds sdus now m).toList).filter
        (fun p => !(decide (p.1 ∈ rest.map fun x => x.id))) =
        (timerEntry sds sdus now m).toList := by
      cases he : timerEntry sds sdus now m with
      | none => simp
      | some e =>
        have hk : e.1 = m.id := timerEntry_key he
        simp [hk]
        exact fun x hx he2 => hm (List.mem_map.mpr ⟨x, hx, he2⟩)
    have hfilter : (st.filter (fun p => decide (p.1 ≠ m.id))).filter
        (fun p => !(decide (p.1 ∈ rest.map fun x => x.id))) =
        st.filter (fun p => !(decide (p.1 ∈ (m :: rest).map fun x => x.id))) := by
      rw [List.filter_filter]
      refine List.filter_congr fun p _ => ?_
      by_cases h1 : p.1 = m.id <;> by_cases h2 : p.1 ∈ rest.map (fun x => x.id) <;>
        simp [h1, h2]
    have hcanon : canonicalTimers sds sdus now (m :: rest) =
        (timerEntry sds sdus now m).toList ++ canonicalTimers sds sdus now rest := by
      cases he : timerEntry sds sdus now m with
      | none => simp [canonicalTimers, List.filterMap_cons_none he]
      | some e => simp [canonicalTimers, List.filterMap_cons_some he]
    rw [hE, hfilter, hcanon]
    rw [List.append_assoc]

/-- After a whole snapshot event the timer table equals the canonical
table determined by the snapshot alone: the pruning pass removes every
entry with an absent id, and each present message replaces its own
entry. -/
theorem processSnapshot_fst (sds sdus : Nat) (now : Time)
    (snap : List MessageDoc) (timers : List (String × Time))
    (h : (snap.map (fun m => m.id)).Nodup) :
    (processSnapshot sds sdus now snap timers).1 =
      canonicalTimers sds sdus now snap := by
  unfold processSnapshot
  rw [runSnap_fst sds sdus now snap _ h]
  have : ((timers.filter (fun p => decide (p.1 ∈ snap.map fun m => m.id))).filter
      (fun p => !(decide (p.1 ∈ snap.map fun m => m.id)))) = [] := by
    rw [List.filter_filter]
    have hp : ∀ p : String × Time,
        ((!decide (p.1 ∈ snap.map fun m => m.id)) &&
          decide (p.1 ∈ snap.map fun m => m.id)) = false := by
      intro p
      cases decide (p.1 ∈ snap.map fun m => m.id) <;> rfl
    simp only [hp]
    exact List.filter_false _
  simp only [this]
  simp

/-- The canonical table keys are drawn from the snapshot ids. -/
theorem canonicalTimers_keys_sub (sds sdus : Nat) (now : Time) :
    ∀ (snap : List MessageDoc) (k : String),
      k ∈ (canonicalTimers sds sdus now snap).map Prod.fst →
      k ∈ snap.map (fun m => m.id)
  | [], k, h => by simp [canonicalTimers] at h
  | m :: rest, k, h => by
    rcases he : timerEntry sds sdus now m with - | e
    · rw [canonicalTimers, List.filterMap_cons_none he] at h
      exact List.mem_cons_of_mem _ (canonicalTimers_keys_sub sds sdus now rest k h)
    · rw [canonicalTimers, List.filterMap_cons_some he, List.map_cons] at h
      rcases List.mem_cons.mp h with h1 | h1
      · exact List.mem_cons.mpr (Or.inl (by rw [h1, timerEntry_key he]))
      · exact List.mem_cons_of_mem _
          (canonicalTimers_keys_sub sds sdus now rest k h1)

/-- Distinct snapshot ids give a canonical table with distinct keys. -/
theorem canonicalTimers_keys_nodup (sds sdus : Nat) (now : Time) :
    ∀ (snap : List MessageDoc),
      (snap.map (fun m => m.id)).Nodup →
      ((canonicalTimers sds sdus now snap).map Prod.fst).Nodup
  | [], _ => by simp [canonicalTimers]
  | m :: rest, h => by
    rw [List.map_cons] at h
    have hm : m.id ∉ rest.map (fun x => x.id) := (List.nodup_cons.mp h).1
    have hrest : (rest.map (fun x => x.id)).Nodup := (List.nodup_cons.mp h).2
    have ihr := canonicalTimers_keys_nodup sds sdus now rest hrest
    rcases he : timerEntry sds sdus now m with - | e
    · rw [canonicalTimers, List.filterMap_cons_none he]
      exact ihr
    · rw [canonicalTimers, List.filterMap_cons_some he, List.map_cons]
      refine List.nodup_cons.mpr ⟨fun hc => ?_, ihr⟩
      rw [timerEntry_key he] at hc
      exact hm (canonicalTimers_keys_sub sds sdus now rest _ hc)

/-- An immediate delete action is emitted for every past-deadline
message of the snapshot. -/
theorem deleteNow_mem_runSnap (sds sdus : Nat) (now : Time) :
    ∀ (snap : List MessageDoc) (st : List (String × Time)) (m : MessageDoc) (d : Time),
      m ∈ snap → computeDeadline sds sdus m = some d → d ≤ now →
      SchedAction.deleteNow m.id ∈ (runSnap sds sdus now snap st).2
  | m0 :: rest, st, m, d, hm, hd, hle => by
    rw [runSnap_cons]
    rcases List.mem_cons.mp hm with h | h
    · subst h
      refine List.mem_append_left _ ?_
      unfold processMessage
      simp [hd, hle]
    · exact List.mem_append_right _
        (deleteNow_mem_runSnap sds sdus now rest _ m d h hd hle)

/-- A schedule action is emitted for every future-deadline message of
the snapshot. -/
theorem scheduleTimer_mem_runSnap (sds sdus : Nat) (now : Time) :
    ∀ (snap : List MessageDoc) (st : List (String × Time)) (m : MessageDoc) (d : Time),
      m ∈ snap → computeDeadline sds sdus m = some d → now < d →
      SchedAction.scheduleTimer m.id d ∈ (runSnap sds sdus now snap st).2
  | m0 :: rest, st, m, d, hm, hd, hlt => by
    rw [runSnap_cons]
    rcases List.mem_cons.mp hm with h | h
    · subst h
      refine List.mem_append_left _ ?_
      unfold processMessage
      simp [hd, Nat.not_le.mpr hlt]
    · exact List.mem_append_right _
        (scheduleTimer_mem_runSnap sds sdus now rest _ m d h hd hlt)

/-- Lifting the delete-action membership to the whole snapshot event. -/
theorem deleteNow_mem_processSnapshot (sds sdus : Nat) (now : Time)
    (snap : List MessageDoc) (timers : List (String × Time)) (m : MessageDoc)
    (d : Time) (hm : m ∈ snap) (hd : computeDeadline sds sdus m = some d)
    (hle : d ≤ now) :
    SchedAction.deleteNow m.id ∈ (processSnapshot sds sdus now snap timers).2 := by
  unfold processSnapshot
  exact List.mem_append_right _
    (deleteNow_mem_runSnap sds sdus now snap _ m d hm hd hle)

/-- Lifting the schedule-action membership to the whole snapshot event. -/
theorem scheduleTimer_mem_processSnapshot (sds sdus : Nat) (now : Time)
    (snap : List MessageDoc) (timers : List (String × Time)) (m : MessageDoc)
    (d : Time) (hm : m ∈ snap) (hd : computeDeadline sds sdus m = some d)
    (hlt : now < d) :
    SchedAction.scheduleTimer m.id d ∈ (processSnapshot sds sdus now snap timers).2 := by
  unfold processSnapshot
  exact List.mem_append_right _
    (scheduleTimer_mem_runSnap sds sdus now snap _ m d hm hd hlt)

/-! ### Claim C2 -/

/-- C2 (confirmed): the deadline of a message is `seenAt` plus the seen
delay when `seenAt` is set and the seen delay is positive; otherwise
`createdAt` plus the unseen delay when `seenAt` is unset, `createdAt` is
set and the unseen delay is positive; otherwise there is none. A
never-viewed message under unseen delay 30 and seen delay 10 gets
deadline `createdAt` plus 30 seconds, and any past-deadline message in a
snapshot receives an immediate delete, while a future-deadline message
receives a timer at its deadline. -/
theorem claim2_destruction_deadlines :
    (∀ (sds sdus : Nat) (m : MessageDoc) (t : Time), m.seenAt = some t → 0 < sds →
      computeDeadline sds sdus m = some (t + sds * 1000)) ∧
    (∀ (sds sdus : Nat) (m : MessageDoc) (c : Time), m.seenAt = none →
      m.createdAt = some c → 0 < sdus →
      computeDeadline sds sdus m = some (c + sdus * 1000)) ∧
    (∀ (sds sdus : Nat) (m : MessageDoc),
      ¬ (m.seenAt.isSome = true ∧ 0 < sds) →
      ¬ (m.seenAt = none ∧ m.createdAt.isSome = true ∧ 0 < sdus) →
      computeDeadline sds sdus m = none) ∧
    (∀ (m : MessageDoc) (c : Time), m.seenAt = none → m.createdAt = some c →
      computeDeadline 10 30 m = some (c + 30000)) ∧
    (∀ (sds sdus : Nat) (now : Time) (snap : List MessageDoc)
      (timers : List (String × Time)) (m : MessageDoc) (d : Time),
      m ∈ snap → computeDeadline sds sdus m = some d → d ≤ now →
      SchedAction.deleteNow m.id ∈ (processSnapshot sds sdus now snap timers).2) ∧
    (∀ (sds sdus : Nat) (now : Time) (snap : List MessageDoc)
      (timers : List (String × Time)) (m : MessageDoc) (d : Time),
      m ∈ snap → computeDeadline sds sdus m = some d → now < d →
      SchedAction.scheduleTimer m.id d ∈ (processSnapshot sds sdus now snap timers).2) := by
  refine ⟨?_, ?_, ?_, ?_, ?_, ?_⟩
  · intro sds sdus m t ht hpos
    simp [computeDeadline, ht, hpos]
  · intro sds sdus m c hs hc hpos
    simp [computeDeadline, hs, hc, hpos]
  · intro sds sdus m h1 h2
    unfold computeDeadline
    rcases hs : m.seenAt with - | t
    · rcases hc : m.createdAt with - | c
      · rfl
      · have : ¬ 0 < sdus := fun hp => h2 ⟨hs, by simp [hc], hp⟩
        simp [this]
    · have : ¬ 0 < sds := fun hp => h1 ⟨by simp [hs], hp⟩
      simp [this]
  · intro m c hs hc
    have : computeDeadline 10 30 m = some (c + 30 * 1000) := by
      simp [computeDeadline, hs, hc]
    simpa using this
  · intro sds sdus now snap timers m d hm hd hle
    exact deleteNow_mem_processSnapshot sds sdus now snap timers m d hm hd hle
  · intro sds sdus now snap timers m d hm hd hlt
    exact scheduleTimer_mem_processSnapshot sds sdus now snap timers m d hm hd hlt

/-- C2 witness: the deadline policy evaluated on concrete messages — the
seen path, the scenario-D unseen path, the no-deadline case, an
immediate delete and a scheduled timer. -/
theorem claim2_witness :
    computeDeadline 10 30 msgSeen = some 10000 ∧
    computeDeadline 10 30 msgFromBob = some 30000 ∧
    computeDeadline 0 0 msgFromBob = none ∧
    SchedAction.deleteNow mid1 ∈ (processSnapshot 10 0 20000 [msgSeen] []).2 ∧
    SchedAction.scheduleTimer mid1 10000 ∈ (processSnapshot 10 0 5000 [msgSeen] []).2 :=
  ⟨by simpa using claim2_destruction_deadlines.1 10 30 msgSeen 0 rfl (by decide),
   by simpa using claim2_destruction_deadlines.2.1 10 30 msgFromBob 0 rfl rfl (by decide),
   claim2_destruction_deadlines.2.2.1 0 0 msgFromBob (by decide) (by decide),
   claim2_destruction_deadlines.2.2.2.2.1 10 0 20000 [msgSeen] [] msgSeen 10000
     (by decide) (by decide) (by decide),
   claim2_destruction_deadlines.2.2.2.2.2 10 0 5000 [msgSeen] [] msgSeen 10000
     (by decide) (by decide) (by decide)⟩

/-! ### Claim C3 -/

/-- C3 counterexample: a system message with a resolved creation time in
a session with unseen delay 30 gets a deadline, gets a timer scheduled
when the deadline is in the future, and gets deleted once the deadline
is past — the scheduler does not exempt system messages. -/
theorem claim3_counterexample :
    sysMsg.type = MsgType.system ∧
    computeDeadline 10 30 sysMsg = some 30000 ∧
    SchedAction.scheduleTimer sid1 30000 ∈ (processSnapshot 10 30 1000 [sysMsg] []).2 ∧
    StoreWrite.deleteMsg sid1 ∈ snapshotWrites 10 30 40000 [sysMsg] [] := by
  decide

/-- C3 (amended): the snapshot handler never inspects the message kind,
so system messages follow the same deadline rules as all others; they
never take the seen path because the mark-seen batch only touches
messages whose sender is the peer participant and the platform sender is
not a participant, and in sessions produced by the creation form the
unseen delay is absent (read as zero), under which an unseen message —
hence any system message — gets no deadline; but with a positive unseen
delay a system message is scheduled and deleted like any other. -/
theorem claim3_system_messages_not_exempt :
    (∀ (sds sdus : Nat) (m : MessageDoc) (ty : MsgType),
      computeDeadline sds sdus { m with type := ty } = computeDeadline sds sdus m) ∧
    (∀ (sds : Nat) (m : MessageDoc), m.seenAt = none →
      computeDeadline sds 0 m = none) ∧
    (∀ (oid : String) (serverNow : Time) (m : MessageDoc),
      m.senderId = "system" → oid ≠ "system" → markOne oid serverNow m = m) ∧
    (∀ (f : CreateFormValues) (nowIso : String),
      (createSessionDoc f nowIso).selfDestructUnseenSeconds.getD 0 = 0) := by
  refine ⟨?_, ?_, ?_, ?_⟩
  · intro sds sdus m ty
    unfold computeDeadline
    rfl
  · intro sds m hs
    unfold computeDeadline
    rw [hs]
    rcases m.createdAt with - | c <;> simp
  · intro oid serverNow m hsys hne
    have hc : ¬ (m.senderId = oid ∧ m.seenAt = none) := by
      rintro ⟨h1, -⟩
      exact hne (by rw [← h1, hsys])
    simp [markOne, hc]
  · intro f nowIso
    rfl

/-- C3 witness: the amended statement evaluated on concrete inputs. -/
theorem claim3_witness :
    computeDeadline 10 0 sysMsg = none ∧
    markOne bobId 500 sysMsg = sysMsg :=
  ⟨claim3_system_messages_not_exempt.2.1 10 sysMsg (by decide),
   claim3_system_messages_not_exempt.2.2.1 bobId 500 sysMsg (by decide) (by decide)⟩

/-! ### Claim C6 -/

/-- C6 counterexample: with alice attached, bob the peer, and one unseen
message from bob in the log, loading or refreshing the log (a snapshot
event) issues no store writes at all — in particular it does not mark
the unseen peer message seen, although the mark-seen query would cover
it; marking happens only when the local client sends. -/
theorem claim6_counterexample :
    otherParticipantId [aliceId, bobId] aliceId = some bobId ∧
    markOtherMessagesAsRead (some bobId) [msgFromBob] = [mid1] ∧
    snapshotWrites 15 0 1000 [msgFromBob] [] = [] := by
  decide

/-- C6 (amended): the mark-seen batch is one batched write covering
exactly the currently-unseen messages from the other participant, but it
is triggered only by the local send action (the batch also carries the
outgoing message and is committed once); a snapshot load or refresh
never writes `seenAt`. -/
theorem claim6_mark_seen_on_send (u oid txt mid : String) (msgs : List MessageDoc)
    (ht : trimNonempty txt = true) (hu : u ≠ "") :
    (∀ i, StoreWrite.setSeen i ∈ sendMessageWrites u (some oid) txt mid msgs ↔
      ∃ m ∈ msgs, m.id = i ∧ m.senderId = oid ∧ m.seenAt = none) ∧
    (StoreWrite.addMsg (newTextMessage u txt mid) ∈
      sendMessageWrites u (some oid) txt mid msgs) ∧
    (∀ (sds sdus : Nat) (now : Time) (snap : List MessageDoc)
      (timers : List (String × Time)) (i : String),
      StoreWrite.setSeen i ∉ snapshotWrites sds sdus now snap timers) := by
  refine ⟨?_, ?_, ?_⟩
  · intro i
    simp only [sendMessageWrites, if_pos (And.intro ht hu)]
    constructor
    · intro h
      rcases List.mem_append.mp h with h1 | h1
      · rcases List.mem_map.mp h1 with ⟨j, hj, hval⟩
        have hj2 : j ∈ (msgs.filter
            (fun m => decide (m.senderId = oid) && m.seenAt.isNone)).map
            (fun m => m.id) := hj
        rcases List.mem_map.mp hj2 with ⟨m, hmf, hid⟩
        have hmem := List.mem_filter.mp hmf
        have hcond : m.senderId = oid ∧ m.seenAt = none := by
          simpa using hmem.2
        refine ⟨m, hmem.1, ?_, hcond.1, hcond.2⟩
        rw [hid]
        exact StoreWrite.setSeen.inj hval
      · simp at h1
    · rintro ⟨m, hmem, hid, hsend, hseen⟩
      refine List.mem_append.mpr (Or.inl ?_)
      refine List.mem_map.mpr ⟨i, ?_, rfl⟩
      simp only [markOtherMessagesAsRead]
      refine List.mem_map.mpr ⟨m, ?_, hid⟩
      refine List.mem_filter.mpr ⟨hmem, ?_⟩
      simp [hsend, hseen]
  · simp only [sendMessageWrites, if_pos (And.intro ht hu)]
    exact List.mem_append.mpr (Or.inr (by simp))
  · intro sds sdus now snap timers i h
    rcases List.mem_filterMap.mp h with ⟨a, -, ha⟩
    cases a with
    | cancelTimer j => exact Option.noConfusion ha
    | scheduleTimer j d => exact Option.noConfusion ha
    | deleteNow j => simp at ha

/-- C6 witness: the send-triggered batch evaluated on concrete data. -/
theorem claim6_witness :
    (StoreWrite.setSeen mid1 ∈
      sendMessageWrites aliceId (some bobId) ("hello") mid2 [msgFromBob]) ∧
    (StoreWrite.addMsg (newTextMessage aliceId ("hello") mid2) ∈
      sendMessageWrites aliceId (some bobId) ("hello") mid2 [msgFromBob]) :=
  ⟨((claim6_mark_seen_on_send aliceId bobId ("hello") mid2 [msgFromBob]
      (by decide) (by decide)).1 mid1).mpr
      ⟨msgFromBob, by decide, by decide, by decide, by decide⟩,
   (claim6_mark_seen_on_send aliceId bobId ("hello") mid2 [msgFromBob]
      (by decide) (by decide)).2.1⟩

/-! ### Claim C8 -/

/-- C8 counterexample: a timer already scheduled for a message id with
the unchanged pairing of `seenAt` and `createdAt` is cancelled and
rescheduled on the next snapshot instead of being left untouched, and
redelivering an identical snapshot containing a past-deadline message
repeats the delete call. -/
theorem claim8_counterexample :
    (processSnapshot 10 0 5000 [msgSeen] [(mid1, 10000)]).2 =
      [SchedAction.cancelTimer mid1, SchedAction.scheduleTimer mid1 10000] ∧
    SchedAction.deleteNow mid1 ∈ (processSnapshot 10 0 20000 [msgSeen] []).2 ∧
    SchedAction.deleteNow mid1 ∈
      (processSnapshot 10 0 20000 [msgSeen]
        (processSnapshot 10 0 20000 [msgSeen] []).1).2 := by
  decide

/-- C8 (amended): the scheduler re-derives the whole timer table on
every snapshot — cancelling and rescheduling each present message's
timer rather than leaving it untouched — and because the table is keyed
by message id the result equals the canonical table computed from the
snapshot alone; hence at most one pending timer exists per message at
any instant and redelivering an identical snapshot leaves the table
unchanged, while past-deadline messages get a repeated (idempotent)
delete call on every delivery. -/
theorem claim8_timer_reconciliation (sds sdus : Nat) (now : Time)
    (snap : List MessageDoc) (timers : List (String × Time))
    (h : (snap.map (fun m => m.id)).Nodup) :
    (processSnapshot sds sdus now snap timers).1 =
      canonicalTimers sds sdus now snap ∧
    ((processSnapshot sds sdus now snap timers).1.map Prod.fst).Nodup ∧
    (processSnapshot sds sdus now snap
        ((processSnapshot sds sdus now snap timers).1)).1 =
      (processSnapshot sds sdus now snap timers).1 := by
  have h1 := processSnapshot_fst sds sdus now snap timers h
  refine ⟨h1, ?_, ?_⟩
  · rw [h1]
    exact canonicalTimers_keys_nodup sds sdus now snap h
  · rw [processSnapshot_fst sds sdus now snap _ h, h1]

/-- C8 witness: the reconciliation properties evaluated on a concrete
snapshot and timer table. -/
theorem claim8_witness :
    (processSnapshot 10 0 5000 [msgSeen] [(mid1, 10000)]).1 =
      canonicalTimers 10 0 5000 [msgSeen] ∧
    ((processSnapshot 10 0 5000 [msgSeen] [(mid1, 10000)]).1.map Prod.fst).Nodup ∧
    (processSnapshot 10 0 5000 [msgSeen]
        ((processSnapshot 10 0 5000 [msgSeen] [(mid1, 10000)]).1)).1 =
      (processSnapshot 10 0 5000 [msgSeen] [(mid1, 10000)]).1 :=
  claim8_timer_reconciliation 10 0 5000 [msgSeen] [(mid1, 10000)] (by decide)

end SecretChat
